import Mathlib

/-!
Verification of the student-batch lambda handler (`src/module/lambda/app.ts`).

The handler parses a JSON body, validates it against a zod schema
(`StudentSchema` / `InputSchema`), performs an in-memory idempotency check
against the module-level `processedRequests` set, evaluates seven fixed
JMESPath queries over the validated student array, and returns an HTTP-style
response.

The embedding below models:
* JSON values as `Json` (numbers as rationals, which cover every numeric
  value the validated range 0–100 can hold);
* the zod schemas as `Option`-returning validators;
* the JMESPath constructs the seven query strings use (field access,
  `[*]` list projection, `[?...]` filter projection, multiselect hash),
  following JMESPath semantics: missing fields yield `null`, and a
  projection drops elements whose projected value is `null`;
* the handler as explicit state passing over the `processedRequests` list,
  with a boolean `evalThrows` oracle standing for an exception raised inside
  the try-block after the idempotency key was added (the `catch` path that
  returns status 500).
-/

namespace LambdaApp

/-- A JSON value, as produced by `JSON.parse`.  Numbers are modelled as
rationals. -/
inductive Json where
  | null : Json
  | bool : Bool → Json
  | num : ℚ → Json
  | str : String → Json
  | arr : List Json → Json
  | obj : List (String × Json) → Json

/-- True exactly on JSON `null` (JMESPath's "no value"). -/
def Json.isNull : Json → Bool
  | .null => true
  | _ => false

/-- Look a key up in an object's key/value list (first match). -/
def getFieldAux : List (String × Json) → String → Json
  | [], _ => .null
  | (k', v) :: rest, k => if k' = k then v else getFieldAux rest k

/-- JMESPath field access: on an object, the value at the key (or `null` when
the key is absent); on any non-object, `null`. -/
def getField : Json → String → Json
  | .obj kvs, k => getFieldAux kvs k
  | _, _ => .null

/-- JMESPath dotted-path access, e.g. `Subject.science`. -/
def getPath (j : Json) : List String → Json
  | [] => j
  | k :: ks => getPath (getField j k) ks

/-- One comparison inside a JMESPath filter predicate, as used by the four
filter queries of the handler.  The literal side is a backtick literal:
a number for `>`/`<`/`== `100``, a string for `== `pass``. -/
inductive Cmp where
  | eqStr : List String → String → Cmp
  | eqNum : List String → ℚ → Cmp
  | gtNum : List String → ℚ → Cmp
  | ltNum : List String → ℚ → Cmp

/-- JMESPath comparison semantics on one element: `==` is (deep) equality and
is `false` on type mismatch or missing field; `>`/`<` yield `null` (falsy)
unless both operands are numbers. -/
def evalCmp (e : Json) : Cmp → Bool
  | .eqStr p s => match getPath e p with
    | .str t => t = s
    | _ => false
  | .eqNum p q => match getPath e p with
    | .num r => r = q
    | _ => false
  | .gtNum p q => match getPath e p with
    | .num r => q < r
    | _ => false
  | .ltNum p q => match getPath e p with
    | .num r => r < q
    | _ => false

/-- A filter predicate: a single comparison, or two comparisons joined by
`&&` or `||`, the shapes the handler's query strings use. -/
inductive Pred where
  | single : Cmp → Pred
  | and : Cmp → Cmp → Pred
  | or : Cmp → Cmp → Pred

/-- JMESPath truthiness of a predicate on one element (`&&`/`||` combine the
truthiness of both comparisons). -/
def evalPred (e : Json) : Pred → Bool
  | .single c => evalCmp e c
  | .and c₁ c₂ => evalCmp e c₁ && evalCmp e c₂
  | .or c₁ c₂ => evalCmp e c₁ || evalCmp e c₂

/-- JMESPath list projection `[*].path`: project the path from each element,
then drop the elements whose projected value is `null` (per the JMESPath
projection rule — no placeholder is kept for a missing field). -/
def projectPath (l : List Json) (p : List String) : List Json :=
  (l.map (fun e => getPath e p)).filter (fun r => !r.isNull)

/-- JMESPath filter projection `[?pred].path`: keep the elements whose
predicate is truthy (in order), then project the path, dropping `null`s. -/
def filterProject (l : List Json) (pred : Pred) (p : List String) : List Json :=
  projectPath (l.filter (fun e => evalPred e pred)) p

/-- JMESPath multiselect hash `{Key: path, ...}` applied to one element:
an object whose keys are the declared names, values the path accesses
(missing field → `null` value). -/
def multiSelect (keys : List (String × List String)) (e : Json) : Json :=
  .obj (keys.map (fun kp => (kp.1, getPath e kp.2)))

/-- JMESPath list projection `[*].{...}` with a multiselect hash on the right:
one object per element; a produced object is never `null`, but the JMESPath
null-dropping projection rule is kept for faithfulness. -/
def projectMulti (l : List Json) (keys : List (String × List String)) : List Json :=
  (l.map (multiSelect keys)).filter (fun r => !r.isNull)

/-- The nested `Subject` object of a validated student
(zod: `science`/`maths` numbers in [0,100], `result ∈ {pass, fail}`). -/
structure Subject where
  science : ℚ
  maths : ℚ
  result : String

/-- A validated student record, the output type of `StudentSchema`
(JSON keys `name`, `Subject`, `Attendance` — capitalized as in the source). -/
structure Student where
  name : String
  subject : Subject
  attendance : ℚ

/-- The JSON value a validated student corresponds to (the shape
`StudentSchema` accepts and passes to the JMESPath queries). -/
def Student.toJson (s : Student) : Json :=
  .obj [("name", .str s.name),
        ("Subject", .obj [("science", .num s.subject.science),
                          ("maths", .num s.subject.maths),
                          ("result", .str s.subject.result)]),
        ("Attendance", .num s.attendance)]

/-- zod `z.number().min(0).max(100)`: a JSON number within the range. -/
def asNumIn (lo hi : ℚ) : Json → Option ℚ
  | .num q => if lo ≤ q ∧ q ≤ hi then some q else none
  | _ => none

/-- zod `z.string()`. -/
def asString : Json → Option String
  | .str s => some s
  | _ => none

/-- The inner `Subject` object schema of `StudentSchema`:
`science`/`maths` numbers in [0,100], `result` is `z.enum(['pass','fail'])`. -/
def subjectSchemaParse (j : Json) : Option Subject := do
  let sci ← asNumIn 0 100 (getField j "science")
  let m ← asNumIn 0 100 (getField j "maths")
  let r ← asString (getField j "result")
  if r = "pass" ∨ r = "fail" then some ⟨sci, m, r⟩ else none

/-- zod `StudentSchema.safeParse` on one element: requires `name` (string),
`Subject` (inner object schema) and `Attendance` (number in [0,100]).
A missing key reads as `null`, which every branch rejects, exactly as zod
reports a missing required field. -/
def studentSchemaParse (j : Json) : Option Student := do
  let n ← asString (getField j "name")
  let subj ← subjectSchemaParse (getField j "Subject")
  let att ← asNumIn 0 100 (getField j "Attendance")
  some ⟨n, subj, att⟩

/-- zod `InputSchema.safeParse`: the body must carry a `result` key holding an
array, every element of which validates as a student. -/
def inputSchemaParse (body : Json) : Option (List Student) :=
  match getField body "result" with
  | .arr l => l.mapM studentSchemaParse
  | _ => none

/-- The response payload of the seven JMESPath queries
(the `results` object of the source, lines 63–71). -/
structure QueryResults where
  studentNames : List Json
  scienceMarks : List Json
  scienceAbove80 : List Json
  passedStudents : List Json
  passedLowAttendance : List Json
  perfectScore : List Json
  nameAndResult : List Json

/-- Predicate of `[?Subject.science > `80`]`. -/
def scienceAbove80Pred : Pred := .single (.gtNum ["Subject", "science"] 80)

/-- Predicate of `[?Subject.result == `pass`]`. -/
def passedPred : Pred := .single (.eqStr ["Subject", "result"] "pass")

/-- Predicate of `[?Subject.result == `pass` && Attendance < `50`]`. -/
def passedLowAttendancePred : Pred :=
  .and (.eqStr ["Subject", "result"] "pass") (.ltNum ["Attendance"] 50)

/-- Predicate of `[?Subject.science == `100` || Subject.maths == `100`]`. -/
def perfectScorePred : Pred :=
  .or (.eqNum ["Subject", "science"] 100) (.eqNum ["Subject", "maths"] 100)

/-- The `results` object: the seven fixed JMESPath queries evaluated against
the validated student array (source lines 63–71). -/
def results (students : List Student) : QueryResults :=
  { studentNames := projectPath (students.map Student.toJson) ["name"]
    scienceMarks := projectPath (students.map Student.toJson) ["Subject", "science"]
    scienceAbove80 := filterProject (students.map Student.toJson) scienceAbove80Pred ["name"]
    passedStudents := filterProject (students.map Student.toJson) passedPred ["name"]
    passedLowAttendance :=
      filterProject (students.map Student.toJson) passedLowAttendancePred ["name"]
    perfectScore := filterProject (students.map Student.toJson) perfectScorePred ["name"]
    nameAndResult :=
      projectMulti (students.map Student.toJson) [("Name", ["name"]), ("Result", ["Subject", "result"])] }

/-- The body of the handler's response (`JSON.stringify` of these payloads
is external serialization, not modelled). -/
inductive ResponseBody where
  | invalidJson : ResponseBody
  | invalidInput : ResponseBody
  | alreadyProcessed : ResponseBody
  | success : QueryResults → ResponseBody
  | internalError : ResponseBody

/-- An `APIGatewayProxyResult`: status code plus response body. -/
structure Response where
  statusCode : Nat
  body : ResponseBody

/-- The lambda `handler`, with the module-level `processedRequests` set passed
and returned explicitly.  `parsedBody` is the outcome of `JSON.parse` on the
event body (`none` = parse exception → 400 "Invalid JSON input").
`evalThrows` models an exception thrown inside the try-block after the
idempotency key was added (query evaluation / response serialization),
which the catch turns into status 500. -/
def handler (parsedBody : Option Json) (idempotencyKey : String)
    (processedRequests : List String) (evalThrows : Bool) :
    Response × List String :=
  match parsedBody with
  | none => (⟨400, .invalidJson⟩, processedRequests)
  | some body =>
    match inputSchemaParse body with
    | none => (⟨400, .invalidInput⟩, processedRequests)
    | some students =>
      if idempotencyKey ∈ processedRequests then
        (⟨200, .alreadyProcessed⟩, processedRequests)
      else
        let processed' := idempotencyKey :: processedRequests
        if evalThrows then
          (⟨500, .internalError⟩, processed')
        else
          (⟨200, .success (results students)⟩, processed')

/-! ## Concrete request bodies used in the scenarios -/

/-- The record of spec scenario 1 with the field names as the spec's data
model spells them: lowercase `subject` and `attendance`. -/
def lowercaseRecordA : Json :=
  .obj [("name", .str "A"),
        ("subject", .obj [("science", .num 90), ("maths", .num 70), ("result", .str "pass")]),
        ("attendance", .num 40)]

/-- Request body carrying the lowercase-field record. -/
def lowercaseBatchBody : Json := .obj [("result", .arr [lowercaseRecordA])]

/-- The record of spec scenario 1 with the field names the source's
`StudentSchema` actually requires: `Subject` and `Attendance`. -/
def capitalizedRecordA : Json :=
  .obj [("name", .str "A"),
        ("Subject", .obj [("science", .num 90), ("maths", .num 70), ("result", .str "pass")]),
        ("Attendance", .num 40)]

/-- Request body carrying the capitalized-field record. -/
def capitalizedBatchBody : Json := .obj [("result", .arr [capitalizedRecordA])]

/-- The validated student that `capitalizedBatchBody` parses to. -/
def studentA : Student := ⟨"A", ⟨90, 70, "pass"⟩, 40⟩

/-- Request body with an empty batch. -/
def emptyBatchBody : Json := .obj [("result", .arr [])]

/-- A record with a `name` but no `Subject` object at all. -/
def recordMissingSubject : Json := .obj [("name", .str "X")]

/-! ## Pointwise evaluation of paths and predicates on validated students -/

theorem getPath_toJson_name (s : Student) :
    getPath s.toJson ["name"] = .str s.name := rfl

theorem getPath_toJson_science (s : Student) :
    getPath s.toJson ["Subject", "science"] = .num s.subject.science := rfl

theorem evalPred_scienceAbove80 (s : Student) :
    evalPred s.toJson scienceAbove80Pred = decide ((80 : ℚ) < s.subject.science) := rfl

theorem evalPred_passedLowAttendance (s : Student) :
    evalPred s.toJson passedLowAttendancePred =
      (decide (s.subject.result = "pass") && decide (s.attendance < 50)) := rfl

theorem evalPred_perfectScore (s : Student) :
    evalPred s.toJson perfectScorePred =
      (decide (s.subject.science = (100 : ℚ)) || decide (s.subject.maths = (100 : ℚ))) := rfl

/-! ## Projection and filter-projection on validated students -/

/-- Projecting `name` over validated students drops nothing: every student
has a string name, never `null`. -/
theorem projectPath_name (l : List Student) :
    projectPath (l.map Student.toJson) ["name"] = l.map (fun s => Json.str s.name) := by
  unfold projectPath
  rw [List.map_map]
  have h1 : (fun e => getPath e ["name"]) ∘ Student.toJson =
      fun s : Student => Json.str s.name := rfl
  rw [h1]
  apply List.filter_eq_self.mpr
  intro x hx
  obtain ⟨s, hs, rfl⟩ := List.mem_map.mp hx
  rfl

/-- Projecting `Subject.science` over validated students drops nothing. -/
theorem projectPath_science (l : List Student) :
    projectPath (l.map Student.toJson) ["Subject", "science"] =
      l.map (fun s => Json.num s.subject.science) := by
  unfold projectPath
  rw [List.map_map]
  have h1 : (fun e => getPath e ["Subject", "science"]) ∘ Student.toJson =
      fun s : Student => Json.num s.subject.science := rfl
  rw [h1]
  apply List.filter_eq_self.mpr
  intro x hx
  obtain ⟨s, hs, rfl⟩ := List.mem_map.mp hx
  rfl

/-- A filter projection `[?pred].name` over validated students is: filter the
students by the predicate, then take their names. -/
theorem filterProject_name (l : List Student) (pred : Pred) (P : Student → Bool)
    (hP : ∀ s : Student, evalPred s.toJson pred = P s) :
    filterProject (l.map Student.toJson) pred ["name"] =
      (l.filter P).map (fun s => Json.str s.name) := by
  unfold filterProject
  rw [List.filter_map]
  have hfun : ((fun e => evalPred e pred) ∘ Student.toJson) = P := funext hP
  rw [hfun, projectPath_name]

/-- Membership in a list of wrapped student names. -/
theorem mem_map_str_name (l : List Student) (n : String) :
    Json.str n ∈ l.map (fun s => Json.str s.name) ↔ ∃ s ∈ l, s.name = n := by
  simp [List.mem_map]

/-! ## Claims -/

/-- C1 (counterexample): with the spec's lowercase field names `subject` and
`attendance`, the batch `[{name:"A", subject:{science:90, maths:70,
result:"pass"}, attendance:40}]` is rejected by schema validation with a 400
"Invalid input" response — the request is not successfully processed, because
`StudentSchema` requires the capitalized keys `Subject` and `Attendance`. -/
theorem claim_C1_counterexample :
    (handler (some lowercaseBatchBody) "K" [] false).1 = ⟨400, .invalidInput⟩ := rfl

/-- C1 (amended): with the capitalized field names `Subject` and `Attendance`
required by the source's schema, the single-record batch is successfully
processed and the success body has `scienceAbove80 = ["A"]`,
`passedLowAttendance = ["A"]` and `perfectScore = []`. -/
theorem claim_C1 :
    handler (some capitalizedBatchBody) "K" [] false =
      (⟨200, .success (results [studentA])⟩, ["K"]) ∧
    (results [studentA]).scienceAbove80 = [.str "A"] ∧
    (results [studentA]).passedLowAttendance = [.str "A"] ∧
    (results [studentA]).perfectScore = [] :=
  ⟨rfl, rfl, rfl, rfl⟩

/-- C2 (counterexample): wildcard projection does not preserve length and
keeps no "no value" placeholder: on the two-element batch
`[{name:"X"}, capitalizedRecordA]` the `[*].Subject.science` projection
yields the single-element sequence `[90]` — the record lacking `Subject` is
dropped entirely, per the JMESPath rule that a projection omits elements
whose projected value is null. -/
theorem claim_C2_counterexample :
    projectPath [recordMissingSubject, capitalizedRecordA] ["Subject", "science"] =
      [Json.num 90] ∧
    (projectPath [recordMissingSubject, capitalizedRecordA]
        ["Subject", "science"]).length ≠
      [recordMissingSubject, capitalizedRecordA].length :=
  ⟨rfl, by decide⟩

/-- C2 (amended): for every validated batch, the `studentNames` and
`scienceMarks` projections yield exactly one entry per record (preserving
length), because every validated record carries the projected fields; and a
record on which the projected path is missing is dropped from the projection
result (no placeholder) without affecting the entries of the other records. -/
theorem claim_C2 :
    (∀ students : List Student,
        (results students).studentNames = students.map (fun s => Json.str s.name) ∧
        (results students).scienceMarks =
          students.map (fun s => Json.num s.subject.science) ∧
        (results students).studentNames.length = students.length ∧
        (results students).scienceMarks.length = students.length) ∧
    (∀ (js₁ js₂ : List Json) (bad : Json) (p : List String),
        getPath bad p = Json.null →
        projectPath (js₁ ++ bad :: js₂) p = projectPath (js₁ ++ js₂) p) := by
  constructor
  · intro students
    refine ⟨projectPath_name students, projectPath_science students, ?_, ?_⟩
    · rw [show (results students).studentNames =
            projectPath (students.map Student.toJson) ["name"] from rfl,
          projectPath_name, List.length_map]
    · rw [show (results students).scienceMarks =
            projectPath (students.map Student.toJson) ["Subject", "science"] from rfl,
          projectPath_science, List.length_map]
  · intro js₁ js₂ bad p hbad
    unfold projectPath
    simp [List.filter_append, hbad, Json.isNull]

/-- C2 witness: on the batch `[studentA]` the names projection is `["A"]`,
and appending the `Subject`-less record to `[capitalizedRecordA]` leaves the
science projection unchanged. -/
theorem claim_C2_witness :
    (results [studentA]).studentNames = [Json.str "A"] ∧
    projectPath ([capitalizedRecordA] ++ recordMissingSubject :: [])
        ["Subject", "science"] =
      projectPath ([capitalizedRecordA] ++ []) ["Subject", "science"] := by
  refine ⟨?_, claim_C2.2 [capitalizedRecordA] [] recordMissingSubject
      ["Subject", "science"] rfl⟩
  rw [(claim_C2.1 [studentA]).1]
  rfl

/-- C3: for a fresh idempotency key the first valid request is fully
processed (success body with the query results, key recorded); once the key
is recorded, every later valid request with the same key — whatever its
batch payload and whether or not evaluation would throw — returns the
"already processed" acknowledgment and leaves the store unchanged. -/
theorem claim_C3 (s : List String) (K : String) (body₁ body₂ : Json)
    (students₁ students₂ : List Student)
    (h₁ : inputSchemaParse body₁ = some students₁)
    (h₂ : inputSchemaParse body₂ = some students₂)
    (hK : K ∉ s) :
    handler (some body₁) K s false = (⟨200, .success (results students₁)⟩, K :: s) ∧
    ∀ (s' : List String) (c : Bool), K ∈ s' →
      handler (some body₂) K s' c = (⟨200, .alreadyProcessed⟩, s') := by
  constructor
  · simp [handler, h₁, hK]
  · intro s' c hK'
    simp [handler, h₂, hK']

/-- C3 witness: instantiated with the scenario-1 batch first and a different
(empty) batch second under the same key. -/
theorem claim_C3_witness :
    handler (some capitalizedBatchBody) "K" [] false =
      (⟨200, .success (results [studentA])⟩, ["K"]) ∧
    handler (some emptyBatchBody) "K" ["K"] false =
      (⟨200, .alreadyProcessed⟩, ["K"]) := by
  have h := claim_C3 [] "K" capitalizedBatchBody emptyBatchBody [studentA] []
    rfl rfl (by simp)
  exact ⟨h.1, h.2 ["K"] false (by simp)⟩

/-- C4: a name appears in `passedLowAttendance` exactly when some record
with that name has `Subject.result = "pass"` and `Attendance < 50` — both
clauses required. -/
theorem claim_C4 (students : List Student) (n : String) :
    Json.str n ∈ (results students).passedLowAttendance ↔
      ∃ r ∈ students, r.name = n ∧ r.subject.result = "pass" ∧ r.attendance < 50 := by
  rw [show (results students).passedLowAttendance =
        filterProject (students.map Student.toJson) passedLowAttendancePred ["name"]
        from rfl,
      filterProject_name students passedLowAttendancePred
        (fun s => decide (s.subject.result = "pass") && decide (s.attendance < 50))
        evalPred_passedLowAttendance,
      mem_map_str_name]
  simp only [List.mem_filter, Bool.and_eq_true, decide_eq_true_eq]
  aesop

/-- C5: a name appears in `perfectScore` exactly when some record with that
name has `Subject.science = 100` or `Subject.maths = 100` — either clause
alone suffices. -/
theorem claim_C5 (students : List Student) (n : String) :
    Json.str n ∈ (results students).perfectScore ↔
      ∃ r ∈ students, r.name = n ∧
        (r.subject.science = 100 ∨ r.subject.maths = 100) := by
  rw [show (results students).perfectScore =
        filterProject (students.map Student.toJson) perfectScorePred ["name"]
        from rfl,
      filterProject_name students perfectScorePred
        (fun s => decide (s.subject.science = (100 : ℚ)) ||
          decide (s.subject.maths = (100 : ℚ)))
        evalPred_perfectScore,
      mem_map_str_name]
  simp only [List.mem_filter, Bool.or_eq_true, decide_eq_true_eq]
  aesop

/-- C4 witness: student A (pass, attendance 40) is listed in
`passedLowAttendance`. -/
theorem claim_C4_witness :
    Json.str "A" ∈ (results [studentA]).passedLowAttendance :=
  (claim_C4 [studentA] "A").mpr ⟨studentA, by simp, rfl, rfl, by norm_num [studentA]⟩

/-- C5 witness: the scenario-2 student B (science 100) is listed in
`perfectScore`. -/
theorem claim_C5_witness :
    Json.str "B" ∈ (results [⟨"B", ⟨100, 50, "fail"⟩, 90⟩]).perfectScore :=
  (claim_C5 [⟨"B", ⟨100, 50, "fail"⟩, 90⟩] "B").mpr
    ⟨⟨"B", ⟨100, 50, "fail"⟩, 90⟩, by simp, rfl, Or.inl rfl⟩

/-- C6: `scienceAbove80` is exactly the names, in batch order, of the records
with `Subject.science` strictly greater than 80 (a record with science
exactly 80 is excluded); membership holds iff some record with that name has
science above 80. -/
theorem claim_C6 (students : List Student) :
    (results students).scienceAbove80 =
      (students.filter (fun r => decide ((80 : ℚ) < r.subject.science))).map
        (fun r => Json.str r.name) ∧
    ∀ n : String, Json.str n ∈ (results students).scienceAbove80 ↔
      ∃ r ∈ students, r.name = n ∧ 80 < r.subject.science := by
  have h := filterProject_name students scienceAbove80Pred
    (fun s => decide ((80 : ℚ) < s.subject.science)) evalPred_scienceAbove80
  constructor
  · exact h
  · intro n
    rw [show (results students).scienceAbove80 =
          filterProject (students.map Student.toJson) scienceAbove80Pred ["name"]
          from rfl, h, mem_map_str_name]
    simp only [List.mem_filter, decide_eq_true_eq]
    aesop

/-- C6 witness: on the batch [A (science 90), C (science 80)] only A's name
survives the strict filter. -/
theorem claim_C6_witness :
    (results [studentA, ⟨"C", ⟨80, 60, "pass"⟩, 70⟩]).scienceAbove80 =
      [Json.str "A"] := by
  rw [(claim_C6 [studentA, ⟨"C", ⟨80, 60, "pass"⟩, 70⟩]).1]
  rfl

/-- C7: the empty batch is processed without error: the handler returns 200
with every one of the seven query results the empty sequence. -/
theorem claim_C7 (K : String) (s : List String) (hK : K ∉ s) :
    handler (some emptyBatchBody) K s false =
      (⟨200, .success ⟨[], [], [], [], [], [], []⟩⟩, K :: s) := by
  simp [handler, show inputSchemaParse emptyBatchBody = some [] from rfl, hK]
  rfl

/-- C7 witness: the empty-batch request against a fresh store. -/
theorem claim_C7_witness :
    handler (some emptyBatchBody) "K" [] false =
      (⟨200, .success ⟨[], [], [], [], [], [], []⟩⟩, ["K"]) :=
  claim_C7 "K" [] (by simp)

/-- C8: query evaluation is deterministic and side-effect free — the success
response for a valid body is a function of the validated batch alone,
identical across invocations whatever the idempotency key or the contents of
the (sole mutable) processed-requests store. -/
theorem claim_C8 (body : Json) (students : List Student)
    (h : inputSchemaParse body = some students) (K₁ K₂ : String)
    (s₁ s₂ : List String) (h₁ : K₁ ∉ s₁) (h₂ : K₂ ∉ s₂) :
    (handler (some body) K₁ s₁ false).1 = (handler (some body) K₂ s₂ false).1 ∧
    (handler (some body) K₁ s₁ false).1 = ⟨200, .success (results students)⟩ := by
  simp [handler, h, h₁, h₂]

/-- C8 witness: the scenario-1 body evaluated under two different keys and
stores. -/
theorem claim_C8_witness :
    (handler (some capitalizedBatchBody) "K1" [] false).1 =
      (handler (some capitalizedBatchBody) "K2" ["other"] false).1 ∧
    (handler (some capitalizedBatchBody) "K1" [] false).1 =
      ⟨200, .success (results [studentA])⟩ :=
  claim_C8 capitalizedBatchBody [studentA] rfl "K1" "K2" [] ["other"]
    (by simp) (by decide)

/-- C9: a request rejected before evaluation — unparseable JSON (400
"Invalid JSON input") or schema validation failure (400 "Invalid input") —
leaves the processed-requests store unchanged, so a later well-formed
request with the same key is fully processed. -/
theorem claim_C9 (K : String) (s : List String) :
    handler none K s false = (⟨400, .invalidJson⟩, s) ∧
    (∀ body : Json, inputSchemaParse body = none →
      ∀ c : Bool, handler (some body) K s c = (⟨400, .invalidInput⟩, s)) ∧
    (∀ (body : Json) (students : List Student),
      inputSchemaParse body = some students → K ∉ s →
      handler (some body) K s false = (⟨200, .success (results students)⟩, K :: s)) := by
  refine ⟨rfl, ?_, ?_⟩
  · intro body hb c
    simp [handler, hb]
  · intro body students hb hK
    simp [handler, hb, hK]

/-- C9 witness: unparseable body, then a schema-invalid body (the lowercase
record), then a well-formed request with the same key, against a fresh
store. -/
theorem claim_C9_witness :
    handler none "K" [] false = (⟨400, .invalidJson⟩, []) ∧
    handler (some lowercaseBatchBody) "K" [] false = (⟨400, .invalidInput⟩, []) ∧
    handler (some capitalizedBatchBody) "K" [] false =
      (⟨200, .success (results [studentA])⟩, ["K"]) := by
  have h := claim_C9 "K" []
  exact ⟨h.1, h.2.1 lowercaseBatchBody rfl false,
    h.2.2 capitalizedBatchBody [studentA] rfl (by simp)⟩

/-- C10: the idempotency key is recorded before evaluation: if evaluation or
serialization throws, the 500 response is returned with the key already in
the store, and any retry of a valid request under that key — throwing or
not — gets the "already processed" acknowledgment instead of re-evaluation. -/
theorem claim_C10 (body : Json) (students : List Student) (K : String)
    (s : List String) (h : inputSchemaParse body = some students) (hK : K ∉ s) :
    handler (some body) K s true = (⟨500, .internalError⟩, K :: s) ∧
    ∀ (body₂ : Json) (students₂ : List Student) (c : Bool),
      inputSchemaParse body₂ = some students₂ →
      handler (some body₂) K (K :: s) c = (⟨200, .alreadyProcessed⟩, K :: s) := by
  constructor
  · simp [handler, h, hK]
  · intro body₂ students₂ c hb
    simp [handler, hb]

/-- C10 witness: the scenario-1 request crashes after the key was recorded;
the retry with the empty batch is acknowledged as already processed. -/
theorem claim_C10_witness :
    handler (some capitalizedBatchBody) "K" [] true = (⟨500, .internalError⟩, ["K"]) ∧
    handler (some emptyBatchBody) "K" ["K"] false =
      (⟨200, .alreadyProcessed⟩, ["K"]) := by
  have h := claim_C10 capitalizedBatchBody [studentA] "K" [] rfl (by simp)
  exact ⟨h.1, h.2 emptyBatchBody [] false rfl⟩

end LambdaApp
